import Mathlib

/-!
Verification of the r-map-mobile viewport/geometry pipeline.

Shallow embedding conventions:
* JavaScript finite numbers are modelled as `ℚ` in the coordinate-utility,
  label-font and viewport-controller modules (whose arithmetic is exact:
  `abs`, `max`, `min`, `+`, `-`, `/2`), and as `ℝ` in the geometry engine
  and zoom computation (which use `log2`, `cos`, `sqrt`, `atan2`).
* A JavaScript value that is absent, `null`, `undefined` or non-finite where
  a number is expected is modelled as `Option.none`; `Number.isFinite` checks
  become `Option.isSome` matches.
* Fallible functions returning `null` are modelled with `Option`.
-/

/-! ### src/utils/mapRegion.js -/

/-- `MIN_LAT_DELTA` from src/utils/mapRegion.js. -/
def MIN_LAT_DELTA : ℚ := 1/2000

/-- `MIN_LNG_DELTA` from src/utils/mapRegion.js. -/
def MIN_LNG_DELTA : ℚ := 1/2000

/-- `Math.max(-90, Math.min(90, value))`. -/
def clampLatitude (value : ℚ) : ℚ := max (-90) (min 90 value)

/-- `clampLongitude` from src/utils/mapRegion.js. -/
def clampLongitude (value : ℚ) : ℚ :=
  if value < -180 then -180 else if value > 180 then 180 else value

/-- A region object with numeric fields (the claims quantify over these). -/
structure Region where
  latitude : ℚ
  longitude : ℚ
  latitudeDelta : ℚ
  longitudeDelta : ℚ

structure Bounds where
  minLat : ℚ
  maxLat : ℚ
  minLng : ℚ
  maxLng : ℚ

/-- `computeBoundsFromRegion` from src/utils/mapRegion.js (fields are numeric,
so the `?? 0.01` defaults never fire). -/
def computeBoundsFromRegion (region : Region) : Bounds :=
  let latDelta := max |region.latitudeDelta| MIN_LAT_DELTA
  let lngDelta := max |region.longitudeDelta| MIN_LNG_DELTA
  let halfLat := latDelta / 2
  let halfLng := lngDelta / 2
  { minLat := clampLatitude (region.latitude - halfLat)
    maxLat := clampLatitude (region.latitude + halfLat)
    minLng := clampLongitude (region.longitude - halfLng)
    maxLng := clampLongitude (region.longitude + halfLng) }

/-- `Coordinate` objects produced by `createCoordinate`. -/
structure Coordinate where
  latitude : ℚ
  longitude : ℚ
deriving DecidableEq, Repr

/-- `createCoordinate` from src/utils/mapRegion.js: `none` inputs model
non-numeric JavaScript values. -/
def createCoordinate (lat lng : Option ℚ) : Option Coordinate :=
  match lat, lng with
  | some a, some b => some ⟨clampLatitude a, clampLongitude b⟩
  | _, _ => none

lemma clampLatitude_mono {a b : ℚ} (h : a ≤ b) : clampLatitude a ≤ clampLatitude b :=
  max_le_max le_rfl (min_le_min le_rfl h)

lemma neg90_le_clampLatitude (v : ℚ) : -90 ≤ clampLatitude v := le_max_left _ _

lemma clampLatitude_le_90 (v : ℚ) : clampLatitude v ≤ 90 :=
  max_le (by norm_num) (min_le_left _ _)

lemma clampLatitude_eq_self {v : ℚ} (h1 : -90 ≤ v) (h2 : v ≤ 90) :
    clampLatitude v = v := by
  unfold clampLatitude
  rw [min_eq_right h2, max_eq_right h1]

lemma clampLongitude_mono {a b : ℚ} (h : a ≤ b) : clampLongitude a ≤ clampLongitude b := by
  unfold clampLongitude
  split_ifs <;> linarith

lemma neg180_le_clampLongitude (v : ℚ) : -180 ≤ clampLongitude v := by
  unfold clampLongitude
  split_ifs <;> linarith

lemma clampLongitude_le_180 (v : ℚ) : clampLongitude v ≤ 180 := by
  unfold clampLongitude
  split_ifs <;> linarith

lemma clampLongitude_eq_self {v : ℚ} (h1 : -180 ≤ v) (h2 : v ≤ 180) :
    clampLongitude v = v := by
  unfold clampLongitude
  split_ifs <;> linarith

/-- C1 counterexample: at a region centered on the north pole with deltas
0.0005, clamping truncates the latitude span to 0.00025 < 0.0005, refuting
the unconditional "both spans at least 0.0005 degrees" clause. -/
theorem computeBoundsFromRegion_span_counterexample :
    (computeBoundsFromRegion ⟨90, 0, 1/2000, 1/2000⟩).maxLat -
      (computeBoundsFromRegion ⟨90, 0, 1/2000, 1/2000⟩).minLat < 1/2000 := by
  norm_num [computeBoundsFromRegion, clampLatitude, MIN_LAT_DELTA, abs_of_nonneg,
    min_def, max_def]

/-- C1, amended: for every region, `computeBoundsFromRegion` returns bounds
with minLat ≤ maxLat, minLng ≤ maxLng, latitudes within [-90, 90] and
longitudes within [-180, 180]; and each span is at least 0.0005 degrees
provided the unclamped bounds of that axis already lie inside the valid
range (clamping at ±90 / ±180 may otherwise truncate a span). -/
theorem computeBoundsFromRegion_spec (R : Region) :
    (computeBoundsFromRegion R).minLat ≤ (computeBoundsFromRegion R).maxLat ∧
    (computeBoundsFromRegion R).minLng ≤ (computeBoundsFromRegion R).maxLng ∧
    -90 ≤ (computeBoundsFromRegion R).minLat ∧
    (computeBoundsFromRegion R).maxLat ≤ 90 ∧
    -180 ≤ (computeBoundsFromRegion R).minLng ∧
    (computeBoundsFromRegion R).maxLng ≤ 180 ∧
    (-90 ≤ R.latitude - max |R.latitudeDelta| MIN_LAT_DELTA / 2 →
      R.latitude + max |R.latitudeDelta| MIN_LAT_DELTA / 2 ≤ 90 →
      1/2000 ≤ (computeBoundsFromRegion R).maxLat - (computeBoundsFromRegion R).minLat) ∧
    (-180 ≤ R.longitude - max |R.longitudeDelta| MIN_LNG_DELTA / 2 →
      R.longitude + max |R.longitudeDelta| MIN_LNG_DELTA / 2 ≤ 180 →
      1/2000 ≤ (computeBoundsFromRegion R).maxLng - (computeBoundsFromRegion R).minLng) := by
  have hB : computeBoundsFromRegion R =
      ⟨clampLatitude (R.latitude - max |R.latitudeDelta| MIN_LAT_DELTA / 2),
       clampLatitude (R.latitude + max |R.latitudeDelta| MIN_LAT_DELTA / 2),
       clampLongitude (R.longitude - max |R.longitudeDelta| MIN_LNG_DELTA / 2),
       clampLongitude (R.longitude + max |R.longitudeDelta| MIN_LNG_DELTA / 2)⟩ := rfl
  have hlat : (1:ℚ)/2000 ≤ max |R.latitudeDelta| MIN_LAT_DELTA := le_max_right _ _
  have hlng : (1:ℚ)/2000 ≤ max |R.longitudeDelta| MIN_LNG_DELTA := le_max_right _ _
  rw [hB]
  refine ⟨?_, ?_, ?_, ?_, ?_, ?_, ?_, ?_⟩
  · exact clampLatitude_mono (by linarith)
  · exact clampLongitude_mono (by linarith)
  · exact neg90_le_clampLatitude _
  · exact clampLatitude_le_90 _
  · exact neg180_le_clampLongitude _
  · exact clampLongitude_le_180 _
  · intro h1 h2
    rw [clampLatitude_eq_self (by linarith) (by linarith),
      clampLatitude_eq_self (by linarith) (by linarith)]
    linarith
  · intro h1 h2
    rw [clampLongitude_eq_self (by linarith) (by linarith),
      clampLongitude_eq_self (by linarith) (by linarith)]
    linarith

/-- Witness for the amended C1 theorem at the concrete region
(lat 10, lng 20, deltas 0.02): both no-truncation hypotheses hold and all
conclusions follow by applying the theorem. -/
theorem computeBoundsFromRegion_spec_witness :
    (-90 ≤ (10:ℚ) - max |(1/50 : ℚ)| MIN_LAT_DELTA / 2 ∧
      (10:ℚ) + max |(1/50 : ℚ)| MIN_LAT_DELTA / 2 ≤ 90 ∧
      -180 ≤ (20:ℚ) - max |(1/50 : ℚ)| MIN_LNG_DELTA / 2 ∧
      (20:ℚ) + max |(1/50 : ℚ)| MIN_LNG_DELTA / 2 ≤ 180) ∧
    (1/2000 ≤ (computeBoundsFromRegion ⟨10, 20, 1/50, 1/50⟩).maxLat -
      (computeBoundsFromRegion ⟨10, 20, 1/50, 1/50⟩).minLat ∧
     1/2000 ≤ (computeBoundsFromRegion ⟨10, 20, 1/50, 1/50⟩).maxLng -
      (computeBoundsFromRegion ⟨10, 20, 1/50, 1/50⟩).minLng) := by
  have hmaxLat : max |(1/50 : ℚ)| MIN_LAT_DELTA = 1/50 := by
    norm_num [MIN_LAT_DELTA, abs_of_nonneg, max_def]
  have hmaxLng : max |(1/50 : ℚ)| MIN_LNG_DELTA = 1/50 := by
    norm_num [MIN_LNG_DELTA, abs_of_nonneg, max_def]
  have h1 : -90 ≤ (10:ℚ) - max |(1/50 : ℚ)| MIN_LAT_DELTA / 2 := by
    rw [hmaxLat]; norm_num
  have h2 : (10:ℚ) + max |(1/50 : ℚ)| MIN_LAT_DELTA / 2 ≤ 90 := by
    rw [hmaxLat]; norm_num
  have h3 : -180 ≤ (20:ℚ) - max |(1/50 : ℚ)| MIN_LNG_DELTA / 2 := by
    rw [hmaxLng]; norm_num
  have h4 : (20:ℚ) + max |(1/50 : ℚ)| MIN_LNG_DELTA / 2 ≤ 180 := by
    rw [hmaxLng]; norm_num
  have h := computeBoundsFromRegion_spec ⟨10, 20, 1/50, 1/50⟩
  exact ⟨⟨h1, h2, h3, h4⟩, h.2.2.2.2.2.2.1 h1 h2, h.2.2.2.2.2.2.2 h3 h4⟩

/-- `computeApproximateZoom` from src/utils/mapRegion.js:
`Math.min(20, Math.max(1, Math.log2(360 / max(|latitudeDelta|, 0.0005))))`. -/
noncomputable def computeApproximateZoom (region : Region) : ℝ :=
  let latDelta : ℝ := max |(region.latitudeDelta : ℝ)| ((MIN_LAT_DELTA : ℚ) : ℝ)
  min 20 (max 1 (Real.logb 2 (360 / latDelta)))

/-- C6: `computeApproximateZoom` is monotonically decreasing in a positive
latitudeDelta, always lies in [1, 20], and equals
log2(360 / max(|latitudeDelta|, 0.0005)) clamped to [1, 20]. -/
theorem computeApproximateZoom_spec :
    (∀ R1 R2 : Region, 0 < R1.latitudeDelta → R1.latitudeDelta ≤ R2.latitudeDelta →
      computeApproximateZoom R2 ≤ computeApproximateZoom R1) ∧
    (∀ R : Region, 1 ≤ computeApproximateZoom R ∧ computeApproximateZoom R ≤ 20 ∧
      computeApproximateZoom R =
        min 20 (max 1 (Real.logb 2
          (360 / max |(R.latitudeDelta : ℝ)| ((MIN_LAT_DELTA : ℚ) : ℝ))))) := by
  have hc : (0:ℝ) < ((MIN_LAT_DELTA : ℚ) : ℝ) := by norm_num [MIN_LAT_DELTA]
  constructor
  · intro R1 R2 h1 h12
    have e1pos : (0:ℝ) < max |(R1.latitudeDelta : ℝ)| ((MIN_LAT_DELTA : ℚ) : ℝ) :=
      lt_of_lt_of_le hc (le_max_right _ _)
    have habs : |(R1.latitudeDelta : ℝ)| ≤ |(R2.latitudeDelta : ℝ)| := by
      rw [abs_of_pos (by exact_mod_cast h1),
        abs_of_pos (by exact_mod_cast (lt_of_lt_of_le h1 h12))]
      exact_mod_cast h12
    have he : max |(R1.latitudeDelta : ℝ)| ((MIN_LAT_DELTA : ℚ) : ℝ) ≤
        max |(R2.latitudeDelta : ℝ)| ((MIN_LAT_DELTA : ℚ) : ℝ) :=
      max_le_max habs le_rfl
    have e2pos : (0:ℝ) < max |(R2.latitudeDelta : ℝ)| ((MIN_LAT_DELTA : ℚ) : ℝ) :=
      lt_of_lt_of_le hc (le_max_right _ _)
    have hdiv : 360 / max |(R2.latitudeDelta : ℝ)| ((MIN_LAT_DELTA : ℚ) : ℝ) ≤
        360 / max |(R1.latitudeDelta : ℝ)| ((MIN_LAT_DELTA : ℚ) : ℝ) :=
      (div_le_div_iff₀ e2pos e1pos).mpr (by nlinarith)
    have hlog := Real.logb_le_logb_of_le (b := 2) (by norm_num)
      (div_pos (by norm_num) e2pos) hdiv
    exact min_le_min le_rfl (max_le_max le_rfl hlog)
  · intro R
    refine ⟨?_, ?_, rfl⟩
    · exact le_min (by norm_num) (le_max_left _ _)
    · exact min_le_left _ _

/-- Witness for C6 at the concrete regions with latitudeDelta 1 and 2. -/
theorem computeApproximateZoom_spec_witness :
    (0 < (1:ℚ) ∧ (1:ℚ) ≤ 2) ∧
    computeApproximateZoom ⟨0, 0, 2, 2⟩ ≤ computeApproximateZoom ⟨0, 0, 1, 1⟩ :=
  ⟨⟨by norm_num, by norm_num⟩,
    computeApproximateZoom_spec.1 ⟨0, 0, 1, 1⟩ ⟨0, 0, 2, 2⟩ (by norm_num) (by norm_num)⟩

/-! ### src/utils/labelFont.js -/

/-- `getPlotLabelFontSize` from src/utils/labelFont.js. -/
def getPlotLabelFontSize (zoom : ℚ) : ℤ :=
  if 19 ≤ zoom ∧ zoom < 20 then 11
  else if 18 ≤ zoom ∧ zoom < 19 then 9
  else if 17.5 ≤ zoom ∧ zoom < 18 then 8
  else if 17.25 ≤ zoom ∧ zoom < 17.5 then 7
  else if 17 ≤ zoom ∧ zoom < 17.5 then 6
  else 11

/-- `getRoadLabelFontSize` from src/utils/labelFont.js. -/
def getRoadLabelFontSize (zoom : ℚ) : ℤ :=
  if 19 ≤ zoom ∧ zoom < 20 then 11
  else if 18 ≤ zoom ∧ zoom < 19 then 9
  else if 17.5 ≤ zoom ∧ zoom < 18 then 8
  else if 17.25 ≤ zoom ∧ zoom < 17.5 then 7
  else if 17 ≤ zoom ∧ zoom < 17.5 then 6
  else 11

/-- The band table exactly as the specification states it (first-match wins,
bands listed low-to-high, explicit fallback). -/
def specLabelFontBand (zoom : ℚ) : ℤ :=
  if 17 ≤ zoom ∧ zoom < 17.25 then 6
  else if 17.25 ≤ zoom ∧ zoom < 17.5 then 7
  else if 17.5 ≤ zoom ∧ zoom < 18 then 8
  else if 18 ≤ zoom ∧ zoom < 19 then 9
  else if 19 ≤ zoom ∧ zoom < 20 then 11
  else 11

lemma plotFont_below17 {zoom : ℚ} (h : zoom < 17) : getPlotLabelFontSize zoom = 11 := by
  unfold getPlotLabelFontSize
  rw [if_neg (by rintro ⟨a, b⟩; linarith), if_neg (by rintro ⟨a, b⟩; linarith),
    if_neg (by rintro ⟨a, b⟩; linarith), if_neg (by rintro ⟨a, b⟩; linarith),
    if_neg (by rintro ⟨a, b⟩; linarith)]

lemma plotFont_band6 {zoom : ℚ} (h1 : 17 ≤ zoom) (h2 : zoom < 17.25) :
    getPlotLabelFontSize zoom = 6 := by
  unfold getPlotLabelFontSize
  rw [if_neg (by rintro ⟨a, b⟩; linarith), if_neg (by rintro ⟨a, b⟩; linarith),
    if_neg (by rintro ⟨a, b⟩; linarith), if_neg (by rintro ⟨a, b⟩; linarith),
    if_pos ⟨h1, by linarith⟩]

lemma plotFont_band7 {zoom : ℚ} (h1 : 17.25 ≤ zoom) (h2 : zoom < 17.5) :
    getPlotLabelFontSize zoom = 7 := by
  unfold getPlotLabelFontSize
  rw [if_neg (by rintro ⟨a, b⟩; linarith), if_neg (by rintro ⟨a, b⟩; linarith),
    if_neg (by rintro ⟨a, b⟩; linarith), if_pos ⟨h1, h2⟩]

lemma plotFont_band8 {zoom : ℚ} (h1 : 17.5 ≤ zoom) (h2 : zoom < 18) :
    getPlotLabelFontSize zoom = 8 := by
  unfold getPlotLabelFontSize
  rw [if_neg (by rintro ⟨a, b⟩; linarith), if_neg (by rintro ⟨a, b⟩; linarith),
    if_pos ⟨h1, h2⟩]

lemma plotFont_band9 {zoom : ℚ} (h1 : 18 ≤ zoom) (h2 : zoom < 19) :
    getPlotLabelFontSize zoom = 9 := by
  unfold getPlotLabelFontSize
  rw [if_neg (by rintro ⟨a, b⟩; linarith), if_pos ⟨h1, h2⟩]

lemma plotFont_band11 {zoom : ℚ} (h1 : 19 ≤ zoom) (h2 : zoom < 20) :
    getPlotLabelFontSize zoom = 11 := by
  unfold getPlotLabelFontSize
  rw [if_pos ⟨h1, h2⟩]

lemma plotFont_from20 {zoom : ℚ} (h : 20 ≤ zoom) : getPlotLabelFontSize zoom = 11 := by
  unfold getPlotLabelFontSize
  rw [if_neg (by rintro ⟨a, b⟩; linarith), if_neg (by rintro ⟨a, b⟩; linarith),
    if_neg (by rintro ⟨a, b⟩; linarith), if_neg (by rintro ⟨a, b⟩; linarith),
    if_neg (by rintro ⟨a, b⟩; linarith)]

lemma specBand_below17 {zoom : ℚ} (h : zoom < 17) : specLabelFontBand zoom = 11 := by
  unfold specLabelFontBand
  rw [if_neg (by rintro ⟨a, b⟩; linarith), if_neg (by rintro ⟨a, b⟩; linarith),
    if_neg (by rintro ⟨a, b⟩; linarith), if_neg (by rintro ⟨a, b⟩; linarith),
    if_neg (by rintro ⟨a, b⟩; linarith)]

lemma specBand_band6 {zoom : ℚ} (h1 : 17 ≤ zoom) (h2 : zoom < 17.25) :
    specLabelFontBand zoom = 6 := by
  unfold specLabelFontBand
  rw [if_pos ⟨h1, h2⟩]

lemma specBand_band7 {zoom : ℚ} (h1 : 17.25 ≤ zoom) (h2 : zoom < 17.5) :
    specLabelFontBand zoom = 7 := by
  unfold specLabelFontBand
  rw [if_neg (by rintro ⟨a, b⟩; linarith), if_pos ⟨h1, h2⟩]

lemma specBand_band8 {zoom : ℚ} (h1 : 17.5 ≤ zoom) (h2 : zoom < 18) :
    specLabelFontBand zoom = 8 := by
  unfold specLabelFontBand
  rw [if_neg (by rintro ⟨a, b⟩; linarith), if_neg (by rintro ⟨a, b⟩; linarith),
    if_pos ⟨h1, h2⟩]

lemma specBand_band9 {zoom : ℚ} (h1 : 18 ≤ zoom) (h2 : zoom < 19) :
    specLabelFontBand zoom = 9 := by
  unfold specLabelFontBand
  rw [if_neg (by rintro ⟨a, b⟩; linarith), if_neg (by rintro ⟨a, b⟩; linarith),
    if_neg (by rintro ⟨a, b⟩; linarith), if_pos ⟨h1, h2⟩]

lemma specBand_band11 {zoom : ℚ} (h1 : 19 ≤ zoom) (h2 : zoom < 20) :
    specLabelFontBand zoom = 11 := by
  unfold specLabelFontBand
  rw [if_neg (by rintro ⟨a, b⟩; linarith), if_neg (by rintro ⟨a, b⟩; linarith),
    if_neg (by rintro ⟨a, b⟩; linarith), if_neg (by rintro ⟨a, b⟩; linarith),
    if_pos ⟨h1, h2⟩]

lemma specBand_from20 {zoom : ℚ} (h : 20 ≤ zoom) : specLabelFontBand zoom = 11 := by
  unfold specLabelFontBand
  rw [if_neg (by rintro ⟨a, b⟩; linarith), if_neg (by rintro ⟨a, b⟩; linarith),
    if_neg (by rintro ⟨a, b⟩; linarith), if_neg (by rintro ⟨a, b⟩; linarith),
    if_neg (by rintro ⟨a, b⟩; linarith)]

/-- C8: both label-font functions realise exactly the specification's band
table ([17,17.25)→6, [17.25,17.5)→7, [17.5,18)→8, [18,19)→9, [19,20)→11,
otherwise 11), and they agree on every zoom. -/
theorem labelFont_band_spec (zoom : ℚ) :
    getPlotLabelFontSize zoom = specLabelFontBand zoom ∧
    getRoadLabelFontSize zoom = getPlotLabelFontSize zoom := by
  refine ⟨?_, rfl⟩
  rcases lt_or_le zoom 17 with h0 | h0
  · rw [plotFont_below17 h0, specBand_below17 h0]
  rcases lt_or_le zoom 17.25 with h1 | h1
  · rw [plotFont_band6 h0 h1, specBand_band6 h0 h1]
  rcases lt_or_le zoom 17.5 with h2 | h2
  · rw [plotFont_band7 h1 h2, specBand_band7 h1 h2]
  rcases lt_or_le zoom 18 with h3 | h3
  · rw [plotFont_band8 h2 h3, specBand_band8 h2 h3]
  rcases lt_or_le zoom 19 with h4 | h4
  · rw [plotFont_band9 h3 h4, specBand_band9 h3 h4]
  rcases lt_or_le zoom 20 with h5 | h5
  · rw [plotFont_band11 h4 h5, specBand_band11 h4 h5]
  · rw [plotFont_from20 h5, specBand_from20 h5]

/-! ### src/unnamed/part_000 — geometry engine

Points are JavaScript objects whose `latitude`/`longitude` fields may be
absent or non-finite; such field values are modelled as `none` (the
`Number(...)`/`Number.isFinite(...)` guards in the source skip them). -/

noncomputable def DEG_TO_RAD : ℝ := Real.pi / 180

def EARTH_RADIUS_M : ℝ := 6378137

structure GeoPoint where
  latitude : Option ℝ
  longitude : Option ℝ

/-- The `(lat, lng)` pair when both fields pass the `Number.isFinite` guards. -/
def GeoPoint.finitePair : GeoPoint → Option (ℝ × ℝ)
  | ⟨some a, some b⟩ => some (a, b)
  | _ => none

/-- Coordinate objects produced by the geometry engine (plain numbers). -/
structure RCoord where
  latitude : ℝ
  longitude : ℝ

/-- `computePolylineCentroid` from src/unnamed/part_000: arithmetic mean of
all valid points across all paths in iteration order. -/
noncomputable def computePolylineCentroid (paths : List (List GeoPoint)) : Option RCoord :=
  if paths.isEmpty then none
  else
    let pts := (paths.map (·.filterMap GeoPoint.finitePair)).flatten
    if pts.isEmpty then none
    else some ⟨(pts.map Prod.fst).sum / pts.length, (pts.map Prod.snd).sum / pts.length⟩

/-- The cyclically adjacent pairs `(ring[i], ring[(i+1) % ring.length])`
visited by the area loop. -/
def cyclicPairs (ring : List GeoPoint) : List (GeoPoint × GeoPoint) :=
  ring.zip (ring.drop 1 ++ ring.take 1)

/-- `Number(ring[0]?.latitude ?? 0) * DEG_TO_RAD` (an absent first latitude
defaults to 0). -/
noncomputable def ringRefLatRad (ring : List GeoPoint) : ℝ :=
  ((ring.head?.bind GeoPoint.latitude).getD 0) * DEG_TO_RAD

/-- One iteration of the shoelace loop: the cross term for a finite pair,
`0` when the `Number.isFinite` guards skip the pair. -/
noncomputable def shoelaceTerm (refLatRad : ℝ) (pr : GeoPoint × GeoPoint) : ℝ :=
  match pr.1.finitePair, pr.2.finitePair with
  | some (lat1, lng1), some (lat2, lng2) =>
    let x1 := lng1 * DEG_TO_RAD * Real.cos refLatRad * EARTH_RADIUS_M
    let y1 := lat1 * DEG_TO_RAD * EARTH_RADIUS_M
    let x2 := lng2 * DEG_TO_RAD * Real.cos refLatRad * EARTH_RADIUS_M
    let y2 := lat2 * DEG_TO_RAD * EARTH_RADIUS_M
    x1 * y2 - x2 * y1
  | _, _ => 0

/-- One iteration of the inner area loop: skip a pair failing the
`Number.isFinite` guards, otherwise add the cross term and set `hasRing`. -/
noncomputable def areaPairStep (ring : List GeoPoint) (acc2 : ℝ × Bool)
    (pr : GeoPoint × GeoPoint) : ℝ × Bool :=
  match pr.1.finitePair, pr.2.finitePair with
  | some _, some _ => (acc2.1 + shoelaceTerm (ringRefLatRad ring) pr, true)
  | _, _ => acc2

/-- One iteration of the outer area loop: rings shorter than 3 points are
skipped entirely. -/
noncomputable def areaRingStep (acc : ℝ × Bool) (ring : List GeoPoint) : ℝ × Bool :=
  if ring.length < 3 then acc
  else (cyclicPairs ring).foldl (areaPairStep ring) acc

/-- `computePolygonApproxAreaSqM` from src/unnamed/part_000: accumulates the
signed cross terms and a `hasRing` flag over every ring of length ≥ 3. -/
noncomputable def computePolygonApproxAreaSqM (paths : List (List GeoPoint)) : Option ℝ :=
  if paths.isEmpty then none
  else
    let r := paths.foldl areaRingStep (0, false)
    if r.2 then some (|r.1| * 0.5) else none

/-- `computeAmenityLabelFontSize` from src/unnamed/part_000
(`AMENITY_LABEL_MIN_PX = 12`, `AMENITY_LABEL_MAX_PX = 30`,
`AMENITY_LABEL_MAX_AREA_SQM = 15000`; `Math.round x = ⌊x + 1/2⌋`). -/
noncomputable def computeAmenityLabelFontSize (paths : List (List GeoPoint)) : ℤ :=
  match computePolygonApproxAreaSqM paths with
  | none => 12
  | some area =>
    if area ≤ 0 then 12
    else
      let normalized := min (area / 15000) 1
      let eased := Real.sqrt normalized
      round ((12 : ℝ) + (30 - 12) * eased)

/-- `offsetCoordinate` from src/unnamed/part_000 (`latRad || 0.00001` guards
against a zero cosine argument by substituting the epsilon when the latitude
is exactly 0). -/
noncomputable def offsetCoordinate (coordinate : RCoord) (metersEast metersNorth : ℝ) :
    RCoord :=
  let latRad := coordinate.latitude * DEG_TO_RAD
  let deltaLat := metersNorth / EARTH_RADIUS_M
  let deltaLng := metersEast / (EARTH_RADIUS_M * Real.cos (if latRad = 0 then 0.00001 else latRad))
  ⟨coordinate.latitude + deltaLat * 180 / Real.pi,
   coordinate.longitude + deltaLng * 180 / Real.pi⟩

/-- C10: `offsetCoordinate` is the identity at zero offset: with
metersEast = metersNorth = 0 both deltas vanish (0 divided by anything is 0,
including the pole case where the cosine is 0), so the input coordinate is
returned unchanged. -/
theorem offsetCoordinate_zero_offset (c : RCoord) : offsetCoordinate c 0 0 = c := by
  unfold offsetCoordinate
  cases c with
  | mk lat lng => simp [zero_div, zero_mul]

/-- Number of points of a ring passing both `Number.isFinite` guards
(the claim's "points with finite latitude and longitude"). -/
def finitePointCount (ring : List GeoPoint) : Nat :=
  (ring.filterMap GeoPoint.finitePair).length

/-- Both members of a cyclically adjacent pair pass the finiteness guards. -/
def pairIsFinite (pr : GeoPoint × GeoPoint) : Bool :=
  pr.1.finitePair.isSome && pr.2.finitePair.isSome

/-- Whether a ring contributes to the `hasRing` flag: length ≥ 3 and at
least one cyclically adjacent pair of finite points. -/
def ringHasFinitePair (ring : List GeoPoint) : Bool :=
  decide (3 ≤ ring.length) && (cyclicPairs ring).any pairIsFinite

/-- Signed shoelace contribution of one ring (0 for skipped rings). -/
noncomputable def ringShoelaceSum (ring : List GeoPoint) : ℝ :=
  if ring.length < 3 then 0
  else ((cyclicPairs ring).map (shoelaceTerm (ringRefLatRad ring))).sum

lemma areaPairStep_foldl (ring : List GeoPoint) (l : List (GeoPoint × GeoPoint))
    (acc : ℝ × Bool) :
    l.foldl (areaPairStep ring) acc =
      (acc.1 + (l.map (shoelaceTerm (ringRefLatRad ring))).sum,
        acc.2 || l.any pairIsFinite) := by
  induction l generalizing acc with
  | nil => simp
  | cons pr rest ih =>
    cases h1 : pr.1.finitePair with
    | none =>
      have hstep : areaPairStep ring acc pr = acc := by
        unfold areaPairStep; rw [h1]
      have hterm : shoelaceTerm (ringRefLatRad ring) pr = 0 := by
        unfold shoelaceTerm; rw [h1]
      have hfin : pairIsFinite pr = false := by
        unfold pairIsFinite; rw [h1]; rfl
      simp [List.foldl_cons, hstep, ih, hterm, hfin]
    | some v1 =>
      cases h2 : pr.2.finitePair with
      | none =>
        have hstep : areaPairStep ring acc pr = acc := by
          unfold areaPairStep; rw [h1, h2]
        have hterm : shoelaceTerm (ringRefLatRad ring) pr = 0 := by
          unfold shoelaceTerm; rw [h1, h2]
        have hfin : pairIsFinite pr = false := by
          unfold pairIsFinite; rw [h2]; simp
        simp [List.foldl_cons, hstep, ih, hterm, hfin]
      | some v2 =>
        have hstep : areaPairStep ring acc pr =
            (acc.1 + shoelaceTerm (ringRefLatRad ring) pr, true) := by
          unfold areaPairStep; rw [h1, h2]
        have hfin : pairIsFinite pr = true := by
          unfold pairIsFinite; rw [h1, h2]; rfl
        simp [List.foldl_cons, hstep, ih, hfin, add_assoc]

lemma areaRingStep_eq (acc : ℝ × Bool) (ring : List GeoPoint) :
    areaRingStep acc ring =
      (acc.1 + ringShoelaceSum ring, acc.2 || ringHasFinitePair ring) := by
  unfold areaRingStep ringShoelaceSum ringHasFinitePair
  split_ifs with h
  · have : ¬ 3 ≤ ring.length := by omega
    simp [this]
  · have : 3 ≤ ring.length := by omega
    rw [areaPairStep_foldl]
    simp [this]

lemma area_foldl (paths : List (List GeoPoint)) (acc : ℝ × Bool) :
    paths.foldl areaRingStep acc =
      (acc.1 + (paths.map ringShoelaceSum).sum,
        acc.2 || paths.any ringHasFinitePair) := by
  induction paths generalizing acc with
  | nil => simp
  | cons ring rest ih =>
    rw [List.foldl_cons, areaRingStep_eq, ih]
    simp [add_assoc, Bool.or_assoc]

/-- C5 counterexample: the ring [(0,0), (1,1), (lat 5, non-finite lng)] has
only 2 finite points, yet `computePolygonApproxAreaSqM` returns a number
(the (0,0)–(1,1) adjacent pair sets the `hasRing` flag), refuting "returns
null for every input in which no ring yields at least 3 finite points". -/
theorem computePolygonApproxAreaSqM_counterexample :
    finitePointCount [⟨some 0, some 0⟩, ⟨some 1, some 1⟩, ⟨some 5, none⟩] = 2 ∧
    (computePolygonApproxAreaSqM
      [[⟨some 0, some 0⟩, ⟨some 1, some 1⟩, ⟨some 5, none⟩]]).isSome = true := by
  constructor
  · rfl
  · unfold computePolygonApproxAreaSqM
    rw [area_foldl]
    have : ([[(⟨some 0, some 0⟩ : GeoPoint), ⟨some 1, some 1⟩,
        ⟨some 5, none⟩]]).any ringHasFinitePair = true := by
      unfold ringHasFinitePair cyclicPairs pairIsFinite
      simp [GeoPoint.finitePair]
    simp [this]

/-- C5, amended: `computePolygonApproxAreaSqM` returns `null` exactly when
the path list is empty or no ring of length ≥ 3 contains a cyclically
adjacent pair of finite points (a ring may therefore produce an area with
only 2 finite points, or yield none with 3 non-adjacent finite points);
otherwise it returns half the absolute value of the signed shoelace sums of
the projected rings, added across rings. -/
theorem computePolygonApproxAreaSqM_spec (paths : List (List GeoPoint)) :
    (computePolygonApproxAreaSqM paths = none ↔
      paths = [] ∨ ∀ ring ∈ paths, ringHasFinitePair ring = false) ∧
    ((∃ ring ∈ paths, ringHasFinitePair ring = true) →
      computePolygonApproxAreaSqM paths =
        some (|(paths.map ringShoelaceSum).sum| * 0.5)) := by
  unfold computePolygonApproxAreaSqM
  rw [area_foldl]
  constructor
  · by_cases hempty : paths.isEmpty
    · simp [hempty, List.isEmpty_iff.mp hempty]
    · simp only [hempty, if_false, Bool.false_or, zero_add]
      by_cases hany : paths.any ringHasFinitePair
      · simp only [hany, if_true]
        constructor
        · intro h; exact absurd h (by simp)
        · intro h
          rcases h with h | h
          · exact absurd h (by simpa using List.isEmpty_iff.not.mp hempty)
          · rcases List.any_eq_true.mp hany with ⟨ring, hmem, hring⟩
            rw [h ring hmem] at hring
            exact absurd hring (by simp)
      · simp only [hany, if_false]
        constructor
        · intro;
          right
          intro ring hmem
          by_contra hneq
          have : ringHasFinitePair ring = true := by
            cases hv : ringHasFinitePair ring
            · exact absurd hv hneq
            · rfl
          exact (List.any_eq_true.not.mp hany) ⟨ring, hmem, this⟩
        · intro; rfl
  · intro ⟨ring, hmem, hring⟩
    have hany : paths.any ringHasFinitePair = true := List.any_eq_true.mpr ⟨ring, hmem, hring⟩
    have hempty : paths.isEmpty = false := by
      cases paths with
      | nil => cases hmem
      | cons a l => rfl
    simp [hempty, hany]

lemma round_mono_of_le {x y : ℝ} (h : x ≤ y) : round x ≤ round y := by
  rw [round_eq, round_eq]
  exact Int.floor_le_floor (by linarith)

lemma round_twelve : round ((12:ℝ)) = 12 := by
  rw [show ((12:ℝ)) = ((12:ℤ):ℝ) by norm_num, round_intCast]

lemma round_thirty : round ((30:ℝ)) = 30 := by
  rw [show ((30:ℝ)) = ((30:ℤ):ℝ) by norm_num, round_intCast]

lemma amenityFont_le_arg (a : ℝ) :
    (12:ℝ) ≤ 12 + (30 - 12) * Real.sqrt (min (a / 15000) 1) := by
  have h := Real.sqrt_nonneg (min (a / 15000) 1)
  nlinarith

lemma amenityFont_arg_le (a : ℝ) :
    12 + (30 - 12) * Real.sqrt (min (a / 15000) 1) ≤ (30:ℝ) := by
  have h1 : Real.sqrt (min (a / 15000) 1) ≤ Real.sqrt 1 :=
    Real.sqrt_le_sqrt (min_le_right _ _)
  rw [Real.sqrt_one] at h1
  nlinarith

lemma amenityFont_round_ge (a : ℝ) :
    12 ≤ round ((12:ℝ) + (30 - 12) * Real.sqrt (min (a / 15000) 1)) := by
  calc (12:ℤ) = round ((12:ℝ)) := round_twelve.symm
    _ ≤ _ := round_mono_of_le (amenityFont_le_arg a)

lemma amenityFont_round_le (a : ℝ) :
    round ((12:ℝ) + (30 - 12) * Real.sqrt (min (a / 15000) 1)) ≤ 30 := by
  calc round ((12:ℝ) + (30 - 12) * Real.sqrt (min (a / 15000) 1))
      ≤ round ((30:ℝ)) := round_mono_of_le (amenityFont_arg_le a)
    _ = 30 := round_thirty

lemma computeAmenityLabelFontSize_of_area {p : List (List GeoPoint)} {a : ℝ}
    (h : computePolygonApproxAreaSqM p = some a) :
    computeAmenityLabelFontSize p =
      if a ≤ 0 then 12
      else round ((12:ℝ) + (30 - 12) * Real.sqrt (min (a / 15000) 1)) := by
  unfold computeAmenityLabelFontSize
  rw [h]

lemma computeAmenityLabelFontSize_of_none {p : List (List GeoPoint)}
    (h : computePolygonApproxAreaSqM p = none) :
    computeAmenityLabelFontSize p = 12 := by
  unfold computeAmenityLabelFontSize
  rw [h]

/-- C9: the amenity label font size is monotone in the computed polygon
area, always lies in [12, 30], and inputs whose computed area is null or
non-positive get the minimum size 12. -/
theorem computeAmenityLabelFontSize_spec :
    (∀ p1 p2 (a1 a2 : ℝ), computePolygonApproxAreaSqM p1 = some a1 →
      computePolygonApproxAreaSqM p2 = some a2 → a1 ≤ a2 →
      computeAmenityLabelFontSize p1 ≤ computeAmenityLabelFontSize p2) ∧
    (∀ p, 12 ≤ computeAmenityLabelFontSize p ∧ computeAmenityLabelFontSize p ≤ 30) ∧
    (∀ p, (computePolygonApproxAreaSqM p = none ∨
        ∃ a, computePolygonApproxAreaSqM p = some a ∧ a ≤ 0) →
      computeAmenityLabelFontSize p = 12) := by
  have hbounds : ∀ p, 12 ≤ computeAmenityLabelFontSize p ∧
      computeAmenityLabelFontSize p ≤ 30 := by
    intro p
    cases harea : computePolygonApproxAreaSqM p with
    | none => rw [computeAmenityLabelFontSize_of_none harea]; exact ⟨le_refl _, by norm_num⟩
    | some a =>
      rw [computeAmenityLabelFontSize_of_area harea]
      split_ifs
      · exact ⟨le_refl _, by norm_num⟩
      · exact ⟨amenityFont_round_ge a, amenityFont_round_le a⟩
  refine ⟨?_, hbounds, ?_⟩
  · intro p1 p2 a1 a2 h1 h2 h12
    rw [computeAmenityLabelFontSize_of_area h1, computeAmenityLabelFontSize_of_area h2]
    by_cases ha1 : a1 ≤ 0
    · rw [if_pos ha1]
      by_cases ha2 : a2 ≤ 0
      · rw [if_pos ha2]
      · rw [if_neg ha2]
        exact amenityFont_round_ge a2
    · have ha2 : ¬ a2 ≤ 0 := fun h => ha1 (le_trans h12 h)
      rw [if_neg ha1, if_neg ha2]
      refine round_mono_of_le ?_
      have hsq : Real.sqrt (min (a1 / 15000) 1) ≤ Real.sqrt (min (a2 / 15000) 1) := by
        apply Real.sqrt_le_sqrt
        exact min_le_min (by linarith) le_rfl
      nlinarith
  · intro p h
    rcases h with h | ⟨a, ha, hle⟩
    · exact computeAmenityLabelFontSize_of_none h
    · rw [computeAmenityLabelFontSize_of_area ha, if_pos hle]

/-- Witness for C9: the degenerate all-zero triangle has computed area
`some 0`, the empty path list has computed area `none`, and the monotonicity
and minimum-size clauses of the theorem apply there. -/
theorem computeAmenityLabelFontSize_spec_witness :
    computePolygonApproxAreaSqM
      [[⟨some 0, some 0⟩, ⟨some 0, some 0⟩, ⟨some 0, some 0⟩]] = some 0 ∧
    computeAmenityLabelFontSize
        [[⟨some 0, some 0⟩, ⟨some 0, some 0⟩, ⟨some 0, some 0⟩]] ≤
      computeAmenityLabelFontSize
        [[⟨some 0, some 0⟩, ⟨some 0, some 0⟩, ⟨some 0, some 0⟩]] ∧
    computePolygonApproxAreaSqM ([] : List (List GeoPoint)) = none ∧
    computeAmenityLabelFontSize ([] : List (List GeoPoint)) = 12 := by
  have hz : computePolygonApproxAreaSqM
      [[⟨some 0, some 0⟩, ⟨some 0, some 0⟩, ⟨some 0, some 0⟩]] = some 0 := by
    unfold computePolygonApproxAreaSqM
    rw [area_foldl]
    have hany : ([[(⟨some 0, some 0⟩ : GeoPoint), ⟨some 0, some 0⟩,
        ⟨some 0, some 0⟩]]).any ringHasFinitePair = true := rfl
    rw [hany]
    simp [ringShoelaceSum, cyclicPairs, shoelaceTerm, GeoPoint.finitePair]
  exact ⟨hz, computeAmenityLabelFontSize_spec.1 _ _ 0 0 hz hz le_rfl, rfl,
    computeAmenityLabelFontSize_spec.2.2 [] (Or.inl rfl)⟩

/-- `Math.atan2(y, x)` on real numbers (angle of the point `(x, y)` in
(-π, π], with the conventional axis/zero cases). -/
noncomputable def atan2 (y x : ℝ) : ℝ :=
  if 0 < x then Real.arctan (y / x)
  else if x < 0 then
    (if 0 ≤ y then Real.arctan (y / x) + Real.pi else Real.arctan (y / x) - Real.pi)
  else if 0 < y then Real.pi / 2
  else if y < 0 then -(Real.pi / 2)
  else 0

lemma atan2_mem_Ioc (y x : ℝ) : -Real.pi < atan2 y x ∧ atan2 y x ≤ Real.pi := by
  have hpi := Real.pi_pos
  unfold atan2
  split_ifs with h1 h2 h3 h4 h5
  · have ha := Real.arctan_lt_pi_div_two (y / x)
    have hb := Real.neg_pi_div_two_lt_arctan (y / x)
    constructor <;> linarith
  · have hyx : y / x ≤ 0 := div_nonpos_iff.mpr (Or.inl ⟨h3, h2.le⟩)
    have ha : Real.arctan (y / x) ≤ 0 := by
      have := Real.arctan_strictMono.monotone hyx
      rwa [Real.arctan_zero] at this
    have hb := Real.neg_pi_div_two_lt_arctan (y / x)
    constructor <;> linarith
  · have hyx : 0 < y / x := div_pos_of_neg_of_neg (not_le.mp h3) h2
    have ha : 0 < Real.arctan (y / x) := by
      have := Real.arctan_strictMono hyx
      rwa [Real.arctan_zero] at this
    have hb := Real.arctan_lt_pi_div_two (y / x)
    constructor <;> linarith
  · constructor <;> linarith
  · constructor <;> linarith
  · constructor <;> linarith

/-- A candidate best segment as stored by the `bestSegment` loop of
`computeRoadLabelPlacement` (endpoint numbers plus the planar score). -/
structure RoadSegment where
  startLat : ℝ
  startLng : ℝ
  endLat : ℝ
  endLng : ℝ
  score : ℝ

/-- One adjacent pair of path points, kept only when all four numbers pass
the `Number.isFinite` guards; the score is
`Math.hypot((endLng-startLng)·cos(avgLatRad), endLat-startLat)`. -/
noncomputable def segmentOf (a b : GeoPoint) : Option RoadSegment :=
  match a.finitePair, b.finitePair with
  | some (sLat, sLng), some (eLat, eLng) =>
    let avgLatRad := ((sLat + eLat) / 2) * DEG_TO_RAD
    let dx := (eLng - sLng) * Real.cos avgLatRad
    let dy := eLat - sLat
    some ⟨sLat, sLng, eLat, eLng, Real.sqrt (dx ^ 2 + dy ^ 2)⟩
  | _, _ => none

/-- The segments `(path[i], path[i+1])` visited by the inner loop. -/
noncomputable def pathSegments (path : List GeoPoint) : List RoadSegment :=
  (path.zip path.tail).filterMap fun pr => segmentOf pr.1 pr.2

/-- All valid segments of all paths in iteration order. -/
noncomputable def allSegments (paths : List (List GeoPoint)) : List RoadSegment :=
  (paths.map pathSegments).flatten

/-- `if (!bestSegment || score > bestSegment.score) bestSegment = {...}`. -/
noncomputable def pickBest (acc : Option RoadSegment) (s : RoadSegment) :
    Option RoadSegment :=
  match acc with
  | none => some s
  | some b => if b.score < s.score then some s else some b

/-- The `bestSegment` selection loop of `computeRoadLabelPlacement`. -/
noncomputable def bestSegment (paths : List (List GeoPoint)) : Option RoadSegment :=
  (allSegments paths).foldl pickBest none

/-- `Math.atan2(Δlat, Δlng·cos(avgLatRad)) * 180 / Math.PI` for the chosen
segment. -/
noncomputable def rawAngleDeg (b : RoadSegment) : ℝ :=
  atan2 (b.endLat - b.startLat)
    ((b.endLng - b.startLng) * Real.cos (((b.startLat + b.endLat) / 2) * DEG_TO_RAD))
    * 180 / Real.pi

/-- The two `if` adjustments `angleDeg -= 180` / `angleDeg += 180`. -/
noncomputable def normalizeAngleDeg (a : ℝ) : ℝ :=
  let a1 := if a > 90 then a - 180 else a
  if a1 < -90 then a1 + 180 else a1

structure RoadLabelPlacement where
  coordinate : RCoord
  angleDeg : ℝ

/-- `computeRoadLabelPlacement` from src/unnamed/part_000. -/
noncomputable def computeRoadLabelPlacement (paths : List (List GeoPoint)) :
    Option RoadLabelPlacement :=
  if paths.isEmpty then none
  else
    match bestSegment paths with
    | none =>
      match computePolylineCentroid paths with
      | none => none
      | some fallback => some ⟨fallback, 0⟩
    | some b =>
      let centroid := (computePolylineCentroid paths).getD
        ⟨(b.startLat + b.endLat) / 2, (b.startLng + b.endLng) / 2⟩
      some ⟨centroid, normalizeAngleDeg (rawAngleDeg b)⟩

lemma normalizeAngleDeg_mem {a : ℝ} (h1 : -180 < a) (h2 : a ≤ 180) :
    -90 ≤ normalizeAngleDeg a ∧ normalizeAngleDeg a ≤ 90 := by
  simp only [normalizeAngleDeg]
  split_ifs <;> constructor <;> linarith

lemma rawAngleDeg_bounds (b : RoadSegment) :
    -180 < rawAngleDeg b ∧ rawAngleDeg b ≤ 180 := by
  obtain ⟨ha, hb⟩ := atan2_mem_Ioc (b.endLat - b.startLat)
    ((b.endLng - b.startLng) * Real.cos (((b.startLat + b.endLat) / 2) * DEG_TO_RAD))
  have hpi := Real.pi_pos
  unfold rawAngleDeg
  constructor
  · rw [lt_div_iff₀ hpi]
    nlinarith
  · rw [div_le_iff₀ hpi]
    nlinarith

lemma foldl_pickBest_some (l : List RoadSegment) (b0 : RoadSegment) :
    ∃ b, l.foldl pickBest (some b0) = some b ∧ (b = b0 ∨ b ∈ l) ∧
      b0.score ≤ b.score ∧ ∀ s ∈ l, s.score ≤ b.score := by
  induction l generalizing b0 with
  | nil => exact ⟨b0, rfl, Or.inl rfl, le_rfl, by simp⟩
  | cons s rest ih =>
    rw [List.foldl_cons]
    by_cases hc : b0.score < s.score
    · have hstep : pickBest (some b0) s = some s := by
        simp [pickBest, hc]
      rw [hstep]
      obtain ⟨b, hb, hmem, hs, hall⟩ := ih s
      refine ⟨b, hb, ?_, le_trans hc.le hs, ?_⟩
      · rcases hmem with rfl | hmem
        · exact Or.inr (List.mem_cons_self _ _)
        · exact Or.inr (List.mem_cons_of_mem _ hmem)
      · intro s' hs'
        rcases List.mem_cons.mp hs' with rfl | hmem'
        · exact hs
        · exact hall s' hmem'
    · have hstep : pickBest (some b0) s = some b0 := by
        simp [pickBest, hc]
      rw [hstep]
      obtain ⟨b, hb, hmem, hs, hall⟩ := ih b0
      refine ⟨b, hb, ?_, hs, ?_⟩
      · rcases hmem with rfl | hmem
        · exact Or.inl rfl
        · exact Or.inr (List.mem_cons_of_mem _ hmem)
      · intro s' hs'
        rcases List.mem_cons.mp hs' with rfl | hmem'
        · exact le_trans (not_lt.mp hc) hs
        · exact hall s' hmem'

lemma bestSegment_exists {paths : List (List GeoPoint)}
    (h : allSegments paths ≠ []) :
    ∃ b, bestSegment paths = some b ∧ b ∈ allSegments paths ∧
      ∀ s ∈ allSegments paths, s.score ≤ b.score := by
  unfold bestSegment
  cases hl : allSegments paths with
  | nil => exact absurd hl h
  | cons s rest =>
    rw [List.foldl_cons]
    have hfirst : pickBest none s = some s := rfl
    rw [hfirst]
    obtain ⟨b, hb, hmem, hsb, hall⟩ := foldl_pickBest_some rest s
    refine ⟨b, hb, ?_, ?_⟩
    · rcases hmem with rfl | hmem
      · exact List.mem_cons_self _ _
      · exact List.mem_cons_of_mem _ hmem
    · intro s' hs'
      rcases List.mem_cons.mp hs' with rfl | hmem'
      · exact hsb
      · exact hall s' hmem'

/-- C4, amended: whenever the paths contain at least one valid segment,
`computeRoadLabelPlacement` returns a placement whose angle is the
normalized bearing of a segment of maximal score, and that angle lies in
the closed interval [-90, 90] (the bound -90 is attained, so the claimed
open bound "strictly greater than -90" is weakened to "at least -90");
with no valid segment but a computable centroid it returns the polyline
centroid with angle 0. -/
theorem computeRoadLabelPlacement_spec (paths : List (List GeoPoint)) :
    (allSegments paths ≠ [] →
      ∃ r b, computeRoadLabelPlacement paths = some r ∧
        bestSegment paths = some b ∧ b ∈ allSegments paths ∧
        (∀ s ∈ allSegments paths, s.score ≤ b.score) ∧
        r.angleDeg = normalizeAngleDeg (rawAngleDeg b) ∧
        -90 ≤ r.angleDeg ∧ r.angleDeg ≤ 90) ∧
    (allSegments paths = [] →
      ∀ c, computePolylineCentroid paths = some c →
        computeRoadLabelPlacement paths = some ⟨c, 0⟩) := by
  constructor
  · intro h
    have hne : paths.isEmpty = false := by
      cases paths with
      | nil => exact absurd rfl h
      | cons _ _ => rfl
    obtain ⟨b, hb, hmem, hall⟩ := bestSegment_exists h
    have hcompute : computeRoadLabelPlacement paths =
        some ⟨(computePolylineCentroid paths).getD
          ⟨(b.startLat + b.endLat) / 2, (b.startLng + b.endLng) / 2⟩,
          normalizeAngleDeg (rawAngleDeg b)⟩ := by
      unfold computeRoadLabelPlacement
      rw [hne, hb]
      rfl
    obtain ⟨hr1, hr2⟩ := rawAngleDeg_bounds b
    obtain ⟨hn1, hn2⟩ := normalizeAngleDeg_mem hr1 hr2
    exact ⟨_, b, hcompute, hb, hmem, hall, rfl, hn1, hn2⟩
  · intro h c hc
    have hne : paths.isEmpty = false := by
      cases paths with
      | nil => simp [computePolylineCentroid] at hc
      | cons _ _ => rfl
    have hbest : bestSegment paths = none := by
      unfold bestSegment
      rw [h]
      rfl
    unfold computeRoadLabelPlacement
    rw [hne, hbest, hc]
    rfl

/-- Witness for the amended C4 theorem: an eastward segment (with-segment
clause) and a single-point path (centroid fallback clause). -/
theorem computeRoadLabelPlacement_spec_witness :
    (allSegments [[⟨some 0, some 0⟩, ⟨some 0, some 1⟩]] ≠ [] ∧
      ∃ r b, computeRoadLabelPlacement [[⟨some 0, some 0⟩, ⟨some 0, some 1⟩]] = some r ∧
        bestSegment [[⟨some 0, some 0⟩, ⟨some 0, some 1⟩]] = some b ∧
        b ∈ allSegments [[⟨some 0, some 0⟩, ⟨some 0, some 1⟩]] ∧
        (∀ s ∈ allSegments [[⟨some 0, some 0⟩, ⟨some 0, some 1⟩]], s.score ≤ b.score) ∧
        r.angleDeg = normalizeAngleDeg (rawAngleDeg b) ∧
        -90 ≤ r.angleDeg ∧ r.angleDeg ≤ 90) ∧
    (allSegments [[⟨some 2, some 3⟩]] = [] ∧
      computePolylineCentroid [[⟨some 2, some 3⟩]] = some ⟨2, 3⟩ ∧
      computeRoadLabelPlacement [[⟨some 2, some 3⟩]] = some ⟨⟨2, 3⟩, 0⟩) := by
  have hne : allSegments [[⟨some 0, some 0⟩, ⟨some 0, some 1⟩]] ≠ [] := by
    simp [allSegments, pathSegments, segmentOf, GeoPoint.finitePair]
  have hempty : allSegments [[⟨some 2, some 3⟩]] = [] := rfl
  have hcent : computePolylineCentroid [[⟨some 2, some 3⟩]] = some ⟨2, 3⟩ := by
    simp [computePolylineCentroid, GeoPoint.finitePair]
  exact ⟨⟨hne, (computeRoadLabelPlacement_spec _).1 hne⟩,
    hempty, hcent, (computeRoadLabelPlacement_spec _).2 hempty ⟨2, 3⟩ hcent⟩

/-- C4 counterexample: a due-south segment (lat 0 → -1 at fixed lng) gets
`atan2(-1, 0) = -π/2`, i.e. angleDeg exactly -90, which neither
normalization branch adjusts; this refutes the claimed strict bound
"angleDeg strictly greater than -90". -/
theorem computeRoadLabelPlacement_counterexample :
    allSegments [[⟨some 0, some 0⟩, ⟨some (-1), some 0⟩]] ≠ [] ∧
    computeRoadLabelPlacement [[⟨some 0, some 0⟩, ⟨some (-1), some 0⟩]] =
      some ⟨⟨-(1/2), 0⟩, -90⟩ := by
  refine ⟨by simp [allSegments, pathSegments, segmentOf, GeoPoint.finitePair], ?_⟩
  have hcent : computePolylineCentroid [[⟨some 0, some 0⟩, ⟨some (-1), some 0⟩]] =
      some ⟨-(1/2), 0⟩ := by
    simp [computePolylineCentroid, GeoPoint.finitePair]
    norm_num
  have hraw : ∀ sc : ℝ, rawAngleDeg ⟨0, 0, -1, 0, sc⟩ = -90 := by
    intro sc
    unfold rawAngleDeg
    dsimp only
    have hdx : ((0:ℝ) - 0) * Real.cos ((((0:ℝ) + -1) / 2) * DEG_TO_RAD) = 0 := by
      norm_num
    rw [hdx]
    unfold atan2
    rw [if_neg (lt_irrefl (0:ℝ)), if_neg (lt_irrefl (0:ℝ)),
      if_neg (by norm_num : ¬(0:ℝ) < -1 - 0), if_pos (by norm_num : (-1:ℝ) - 0 < 0)]
    have hpi := Real.pi_ne_zero
    field_simp
    ring
  have hnorm : normalizeAngleDeg (-90) = -90 := by
    norm_num [normalizeAngleDeg]
  have step1 : computeRoadLabelPlacement [[⟨some 0, some 0⟩, ⟨some (-1), some 0⟩]] =
      some ⟨(computePolylineCentroid [[⟨some 0, some 0⟩, ⟨some (-1), some 0⟩]]).getD
          ⟨((0:ℝ) + -1) / 2, ((0:ℝ) + 0) / 2⟩,
        normalizeAngleDeg (rawAngleDeg ⟨0, 0, -1, 0,
          Real.sqrt ((((0:ℝ) - 0) * Real.cos ((((0:ℝ) + -1) / 2) * DEG_TO_RAD)) ^ 2 +
            ((-1:ℝ) - 0) ^ 2)⟩)⟩ := rfl
  rw [step1, hcent, hraw, hnorm]
  rfl

/-! ### src/unnamed/part_011 — GeoJSON normalizer

A parsed GeoJSON value is a tree of JavaScript values; only numbers and
arrays are inspected by the readers, every other value is `JsVal.other`.
A `Feature` whose `geometry` is null/absent and a `FeatureCollection`
whose `features` is not an array fall through every type-check in the
source and behave exactly like an unrecognised node, so they are modelled
as `GeoNode.otherNode`. -/

inductive JsVal where
  | num (q : ℚ)
  | arr (items : List JsVal)
  | other

inductive GeoNode where
  | point (coordinates : JsVal)
  | lineString (coordinates : JsVal)
  | polygon (coordinates : JsVal)
  | multiPolygon (coordinates : JsVal)
  | multiLineString (coordinates : JsVal)
  | feature (geometry : GeoNode)
  | featureCollection (features : List GeoNode)
  | otherNode

/-- A number at an array position (`undefined` / non-number gives `none`). -/
def asNum : Option JsVal → Option ℚ
  | some (.num q) => some q
  | _ => none

/-- `const [lng, lat] = pair; createCoordinate(lat, lng)`: element 1 is the
latitude, element 0 the longitude. Destructuring a non-array throws in the
source and is caught by the `extract*` wrappers (which yield null/[]);
modelled as `none`. -/
def coordOfPair (pair : JsVal) : Option Coordinate :=
  match pair with
  | .arr items => createCoordinate (asNum items[1]?) (asNum items[0]?)
  | _ => none

mutual

/-- `readCoordinateFromGeoJson` from src/unnamed/part_011. -/
def readCoordinateFromGeoJson : GeoNode → Option Coordinate
  | .point coords => coordOfPair coords
  | .feature g => readCoordinateFromGeoJson g
  | .featureCollection fs => readCoordinateFromList fs
  | .lineString coords =>
    match coords with
    | .arr items =>
      match items[0]? with
      | some (JsVal.arr f) => coordOfPair (.arr f)
      | _ => none
    | _ => none
  | .polygon coords =>
    match coords with
    | .arr rings =>
      match rings[0]? with
      | some (JsVal.arr ringItems) =>
        match ringItems[0]? with
        | some p => coordOfPair p
        | none => none
      | _ => none
    | _ => none
  | .multiPolygon coords =>
    match coords with
    | .arr polys =>
      match polys[0]? with
      | some (JsVal.arr firstPoly) =>
        match firstPoly[0]? with
        | some (JsVal.arr ringItems) =>
          match ringItems[0]? with
          | some p => coordOfPair p
          | none => none
        | _ => none
      | _ => none
    | _ => none
  | .multiLineString _ => none
  | .otherNode => none

/-- The `for (const feature of node.features)` loop: first feature with a
resolvable coordinate wins. -/
def readCoordinateFromList : List GeoNode → Option Coordinate
  | [] => none
  | f :: rest =>
    match readCoordinateFromGeoJson f with
    | some c => some c
    | none => readCoordinateFromList rest

end

mutual

/-- `readPolygonPathsFromGeoJson` from src/unnamed/part_011. -/
def readPolygonPathsFromGeoJson : GeoNode → Option (List (List Coordinate))
  | .feature g => readPolygonPathsFromGeoJson g
  | .featureCollection fs => some (polygonPathsOfList fs)
  | .polygon coords =>
    match coords with
    | .arr rings =>
      match rings[0]? with
      | some (JsVal.arr outerRing) =>
        let coordinates := outerRing.filterMap coordOfPair
        if 2 < coordinates.length then some [coordinates] else none
      | _ => none
    | _ => none
  | .multiPolygon coords =>
    match coords with
    | .arr polys =>
      let polygons := polys.filterMap fun polygon =>
        match polygon with
        | .arr ringList =>
          match ringList[0]? with
          | some (JsVal.arr ring) =>
            let coordinates := ring.filterMap coordOfPair
            if 2 < coordinates.length then some coordinates else none
          | _ => none
        | _ => none
      if polygons.isEmpty then none else some polygons
    | _ => none
  | _ => none

/-- `features.map(readPolygonPathsFromGeoJson).flat().filter(Boolean)`:
flatten each feature's paths, dropping null results. -/
def polygonPathsOfList : List GeoNode → List (List Coordinate)
  | [] => []
  | f :: rest =>
    (match readPolygonPathsFromGeoJson f with
     | some ps => ps
     | none => []) ++ polygonPathsOfList rest

end

/-- C2: a MultiPolygon whose 2 sub-polygons each have an outer ring with
more than 2 valid coordinate pairs yields exactly the 2 outer-ring paths;
a FeatureCollection wrapping a Feature wrapping a Point yields the same
coordinate as the raw Point; and a Point's output latitude comes from
element 1 and its longitude from element 0 of the GeoJSON pair. -/
theorem geoJson_normalizer_spec :
    (∀ ring1 ring2 rest1 rest2 : List JsVal,
      2 < (ring1.filterMap coordOfPair).length →
      2 < (ring2.filterMap coordOfPair).length →
      readPolygonPathsFromGeoJson (.multiPolygon (.arr
          [.arr (.arr ring1 :: rest1), .arr (.arr ring2 :: rest2)])) =
        some [ring1.filterMap coordOfPair, ring2.filterMap coordOfPair]) ∧
    (∀ c : JsVal,
      readCoordinateFromGeoJson (.featureCollection [.feature (.point c)]) =
        readCoordinateFromGeoJson (.point c)) ∧
    (∀ (pairItems : List JsVal) (lat lng : ℚ),
      asNum pairItems[1]? = some lat →
      asNum pairItems[0]? = some lng →
      readCoordinateFromGeoJson (.point (.arr pairItems)) =
        some ⟨clampLatitude lat, clampLongitude lng⟩) := by
  refine ⟨?_, ?_, ?_⟩
  · intro ring1 ring2 rest1 rest2 h1 h2
    simp [readPolygonPathsFromGeoJson, h1, h2]
  · intro c
    have hfc : readCoordinateFromGeoJson (.featureCollection [.feature (.point c)]) =
        readCoordinateFromList [.feature (.point c)] := by
      simp [readCoordinateFromGeoJson]
    have hfeat : readCoordinateFromGeoJson (GeoNode.feature (.point c)) =
        readCoordinateFromGeoJson (.point c) := by
      simp [readCoordinateFromGeoJson]
    rw [hfc]
    simp only [readCoordinateFromList]
    rw [hfeat]
    cases h : readCoordinateFromGeoJson (.point c) with
    | some x => simp
    | none => simp [readCoordinateFromList]
  · intro pairItems lat lng hlat hlng
    simp [readCoordinateFromGeoJson, coordOfPair, hlat, hlng, createCoordinate]

/-- Concrete three-pair outer ring used by the C2 witness. -/
def mpRingA : List JsVal :=
  [.arr [.num 0, .num 1], .arr [.num 2, .num 3], .arr [.num 4, .num 5]]

/-- Second concrete outer ring used by the C2 witness. -/
def mpRingB : List JsVal :=
  [.arr [.num 10, .num 11], .arr [.num 12, .num 13], .arr [.num 14, .num 15]]

/-- Witness for C2 at a concrete 2-sub-polygon MultiPolygon and the
concrete Point [5, 6]. -/
theorem geoJson_normalizer_spec_witness :
    (2 < (mpRingA.filterMap coordOfPair).length ∧
      2 < (mpRingB.filterMap coordOfPair).length ∧
      readPolygonPathsFromGeoJson (.multiPolygon (.arr
          [.arr (.arr mpRingA :: []), .arr (.arr mpRingB :: [])])) =
        some [mpRingA.filterMap coordOfPair, mpRingB.filterMap coordOfPair]) ∧
    (asNum ([JsVal.num 5, JsVal.num 6][1]?) = some 6 ∧
      asNum ([JsVal.num 5, JsVal.num 6][0]?) = some 5 ∧
      readCoordinateFromGeoJson (.point (.arr [JsVal.num 5, JsVal.num 6])) =
        some ⟨clampLatitude 6, clampLongitude 5⟩) := by
  have h1 : 2 < (mpRingA.filterMap coordOfPair).length := by
    simp [mpRingA, coordOfPair, asNum, createCoordinate]
  have h2 : 2 < (mpRingB.filterMap coordOfPair).length := by
    simp [mpRingB, coordOfPair, asNum, createCoordinate]
  have hlat : asNum ([JsVal.num 5, JsVal.num 6][1]?) = some 6 := rfl
  have hlng : asNum ([JsVal.num 5, JsVal.num 6][0]?) = some 5 := rfl
  exact ⟨⟨h1, h2, geoJson_normalizer_spec.1 mpRingA mpRingB [] [] h1 h2⟩,
    hlat, hlng, geoJson_normalizer_spec.2.2 _ 6 5 hlat hlng⟩

/-! ### src/unnamed/part_011 — viewport data controller

Property features as the controller sees them: an id string and the
(always finite, `createCoordinate`-produced) center coordinate. The
`current === next` reference-equality fast path of `hasPropertyDiff`
cannot fire in the hook (the normalizer always builds fresh arrays), so
the model compares two distinct array instances. -/

/-- `COORD_EPSILON` from src/unnamed/part_011. -/
def COORD_EPSILON : ℚ := 1/100000

structure PropertyFeature where
  id : String
  coordinate : Option Coordinate
deriving DecidableEq

/-- `coordinatesDiffer` from src/unnamed/part_011 at its default epsilon
(the `Number.isFinite` guards are vacuous here because model coordinates
are finite by construction). -/
def coordinatesDiffer (a b : Option Coordinate) : Bool :=
  match a, b with
  | none, none => false
  | none, some _ => true
  | some _, none => true
  | some ca, some cb =>
    decide (COORD_EPSILON < |ca.latitude - cb.latitude|) ||
    decide (COORD_EPSILON < |ca.longitude - cb.longitude|)

/-- `new Map(current.map((item) => [item.id, item])).get(id)`: the last
occurrence of an id wins. -/
def findLastById (current : List PropertyFeature) (id : String) :
    Option PropertyFeature :=
  current.reverse.find? (fun item => item.id == id)

/-- The body of the `for (const item of next)` loop in `hasPropertyDiff`. -/
def propertyDiffCheck (current : List PropertyFeature) (item : PropertyFeature) : Bool :=
  match findLastById current item.id with
  | none => true
  | some existing => coordinatesDiffer existing.coordinate item.coordinate

/-- `hasPropertyDiff` from src/unnamed/part_011 (for two distinct array
instances, both of which are arrays). -/
def hasPropertyDiff (current next : List PropertyFeature) : Bool :=
  if current.length ≠ next.length then true
  else next.any (propertyDiffCheck current)

/-- `setProperties((prev) => hasPropertyDiff(prev, next) ? next : prev)`. -/
def commitProperties (prev next : List PropertyFeature) : List PropertyFeature :=
  if hasPropertyDiff prev next then next else prev

lemma propertyDiffCheck_iff (current : List PropertyFeature) (item : PropertyFeature) :
    propertyDiffCheck current item = true ↔
      findLastById current item.id = none ∨
      ∃ existing, findLastById current item.id = some existing ∧
        coordinatesDiffer existing.coordinate item.coordinate = true := by
  unfold propertyDiffCheck
  cases hfind : findLastById current item.id with
  | none => simp [hfind]
  | some e => simp [hfind]

/-- C3 counterexample: equal-length lists with disjoint ids ("a" vs "b")
have no id present in both lists and no moved coordinate, yet the diff
predicate reports a change — refuting the claimed "if and only if". -/
theorem hasPropertyDiff_counterexample :
    hasPropertyDiff [⟨"a", some ⟨0, 0⟩⟩] [⟨"b", some ⟨0, 0⟩⟩] = true ∧
    ([(⟨"a", some ⟨0, 0⟩⟩ : PropertyFeature)]).length =
      ([(⟨"b", some ⟨0, 0⟩⟩ : PropertyFeature)]).length ∧
    (⟨"a", some ⟨0, 0⟩⟩ : PropertyFeature).id ≠
      (⟨"b", some ⟨0, 0⟩⟩ : PropertyFeature).id ∧
    (⟨"a", some ⟨0, 0⟩⟩ : PropertyFeature).coordinate =
      (⟨"b", some ⟨0, 0⟩⟩ : PropertyFeature).coordinate := by
  refine ⟨?_, rfl, by simp, rfl⟩
  rfl

/-- C3, amended: the diff predicate reports a change iff the lengths
differ, or some item of `next` has an id absent from `current`, or some
item of `next` whose id is present in `current` (last occurrence, as the
Map construction overwrites) has a coordinate differing from the committed
one beyond the 0.00001° epsilon (missing/one-sided coordinates count as
differing); when it reports no change the previously committed list is
kept. -/
theorem hasPropertyDiff_spec (current next : List PropertyFeature) :
    (hasPropertyDiff current next = true ↔
      current.length ≠ next.length ∨
      ∃ item ∈ next,
        findLastById current item.id = none ∨
        ∃ existing, findLastById current item.id = some existing ∧
          coordinatesDiffer existing.coordinate item.coordinate = true) ∧
    (hasPropertyDiff current next = false → commitProperties current next = current) ∧
    (∀ ca cb : Coordinate, coordinatesDiffer (some ca) (some cb) = true ↔
      (1/100000 < |ca.latitude - cb.latitude| ∨
        1/100000 < |ca.longitude - cb.longitude|)) := by
  refine ⟨?_, ?_, ?_⟩
  · unfold hasPropertyDiff
    by_cases hlen : current.length = next.length
    · rw [if_neg (not_not_intro hlen), List.any_eq_true]
      simp only [propertyDiffCheck_iff]
      constructor
      · rintro ⟨item, hm, hp⟩
        exact Or.inr ⟨item, hm, hp⟩
      · rintro (h | ⟨item, hm, hp⟩)
        · exact absurd hlen h
        · exact ⟨item, hm, hp⟩
    · rw [if_pos hlen]
      simp [hlen]
  · intro h
    unfold commitProperties
    rw [h]
    rfl
  · intro ca cb
    unfold coordinatesDiffer COORD_EPSILON
    simp

/-- Witness for C3 on empty lists: no diff is reported and the committed
list is kept. -/
theorem hasPropertyDiff_spec_witness :
    hasPropertyDiff [] [] = false ∧ commitProperties [] [] = [] :=
  ⟨rfl, (hasPropertyDiff_spec [] []).2.1 rfl⟩

/-- Plot/road/amenity features as seen by `hasFeatureDiff` (only ids are
compared). -/
structure FeatureLite where
  id : String
deriving DecidableEq

/-- `hasFeatureDiff` from src/unnamed/part_011 (two distinct array
instances): change iff lengths differ or some id of `next` is new. -/
def hasFeatureDiff (current next : List FeatureLite) : Bool :=
  if current.length ≠ next.length then true
  else next.any fun item => !(current.any fun c => c.id == item.id)

/-- The four normalized feature lists produced by `mapViewportPayload`. -/
structure ViewportFeatures where
  properties : List PropertyFeature
  plots : List FeatureLite
  roads : List FeatureLite
  amenities : List FeatureLite

/-- The reactive state owned by `useViewportProperties` that one
`fetchViewport` call can touch. -/
structure ViewportState where
  properties : List PropertyFeature
  plots : List FeatureLite
  roads : List FeatureLite
  amenities : List FeatureLite
  loading : Bool
  error : Option String

/-- How one (mounted, non-superseded) `fetchViewport` call resolves:
a decoded success payload, a non-abort failure carrying `err.message`
(`none` models an error without a message string), or an abort. -/
inductive FetchOutcome where
  | success (normalized : ViewportFeatures)
  | failure (message : Option String)
  | aborted

/-- One `fetchViewport` call as a state transition: `setLoading(true)` and
`setError(null)` before the request; on success, diff-gated commits of the
four lists and `setError(null)`; on a non-abort failure,
`setError(err?.message || "Unable to load properties for this view.")` and
nothing else; on abort, an early return; the `finally` block clears
`loading`. -/
def fetchViewportStep (st : ViewportState) (outcome : FetchOutcome) : ViewportState :=
  let st1 := { st with loading := true, error := none }
  match outcome with
  | .aborted => { st1 with loading := false }
  | .failure message =>
    { st1 with
      error := some (match message with
        | some m => if m = "" then "Unable to load properties for this view." else m
        | none => "Unable to load properties for this view.")
      loading := false }
  | .success normalized =>
    { st1 with
      properties := if hasPropertyDiff st1.properties normalized.properties then
          normalized.properties else st1.properties
      plots := if hasFeatureDiff st1.plots normalized.plots then
          normalized.plots else st1.plots
      roads := if hasFeatureDiff st1.roads normalized.roads then
          normalized.roads else st1.roads
      amenities := if hasFeatureDiff st1.amenities normalized.amenities then
          normalized.amenities else st1.amenities
      error := none
      loading := false }

/-- C7: a non-abort fetch failure sets the error state to a non-empty
message and leaves all four previously committed feature lists exactly as
they were. -/
theorem fetchViewport_failure_spec (st : ViewportState) (message : Option String) :
    (fetchViewportStep st (.failure message)).properties = st.properties ∧
    (fetchViewportStep st (.failure message)).plots = st.plots ∧
    (fetchViewportStep st (.failure message)).roads = st.roads ∧
    (fetchViewportStep st (.failure message)).amenities = st.amenities ∧
    ∃ m, (fetchViewportStep st (.failure message)).error = some m ∧ m ≠ "" := by
  refine ⟨rfl, rfl, rfl, rfl, ?_⟩
  cases message with
  | none => exact ⟨_, rfl, by decide⟩
  | some m =>
    by_cases hm : m = ""
    · refine ⟨"Unable to load properties for this view.", ?_, by decide⟩
      simp [fetchViewportStep, hm]
    · refine ⟨m, ?_, hm⟩
      simp [fetchViewportStep, hm]

/-- Witness for the amended C5 theorem: the all-zero triangle ring has a
finite adjacent pair, so the area is the halved absolute shoelace sum. -/
theorem computePolygonApproxAreaSqM_spec_witness :
    (∃ ring ∈ [[(⟨some 0, some 0⟩ : GeoPoint), ⟨some 0, some 0⟩, ⟨some 0, some 0⟩]],
      ringHasFinitePair ring = true) ∧
    computePolygonApproxAreaSqM
        [[⟨some 0, some 0⟩, ⟨some 0, some 0⟩, ⟨some 0, some 0⟩]] =
      some (|(([[(⟨some 0, some 0⟩ : GeoPoint), ⟨some 0, some 0⟩,
        ⟨some 0, some 0⟩]]).map ringShoelaceSum).sum| * 0.5) := by
  have hex : ∃ ring ∈ [[(⟨some 0, some 0⟩ : GeoPoint), ⟨some 0, some 0⟩,
      ⟨some 0, some 0⟩]], ringHasFinitePair ring = true :=
    ⟨_, List.mem_cons_self _ _, rfl⟩
  exact ⟨hex, (computePolygonApproxAreaSqM_spec _).2 hex⟩
